import Mathlib

/-!
Verification of the sni-icon cross-domain StatusNotifierItem proxy.

This file shallowly embeds the parts of the program relevant to the frozen
claims:

* the agent's per-(icon, property) refresh-coalescing mask protocol
  (src/bin/sni-agent.rs, handle_cb);
* the daemon's event-processing loop (src/bin/sni-daemon.rs, client_server):
  id monotonicity, app-id sanitization through SHA-256, the two-pixel
  yellow-border painting of incoming pixmaps, and the fatal rejection of
  Title/Status used as pixmap types;
* the wire codec (bincode with fixint encoding, little-endian, trailing bytes
  rejected) for the two framed payload types, and the length-prefixed frame
  reader of both processes;
* the agent's StatusNotifierWatcher impersonation's NameOwnerChanged handler
  (src/bin/sni-agent.rs, Watcher::new).

Machine integers are embedded as Nat with explicit reduction modulo 2^32 /
2^64 where the Rust code relies on wrapping; Rust panics and process-fatal
errors are embedded as Option/Except failures.  Rust Strings are embedded as
their UTF-8 byte lists (a Rust String is exactly a byte buffer carrying a
UTF-8 validity invariant, and String equality is byte equality).
-/

namespace SniIcon

/-- Modelled from the spec: the five-variant IconType of the shared library
crate (the crate root checked into the repository is an older three-variant
revision; the binaries use the five-variant one described in spec section 3,
"one of {Normal, Overlay, Attention, Title, Status} encoded as bit-distinct
small integers (1,2,4,8,16)"). -/
inductive IconType
  | Normal
  | Overlay
  | Attention
  | Title
  | Status
deriving DecidableEq, Repr

/-- Modelled from the spec: the bit-distinct discriminant of an IconType,
i.e. what `flag as u8` evaluates to in the agent (spec section 3:
"encoded as bit-distinct small integers (1,2,4,8,16)"). -/
def IconType.bits : IconType → Nat
  | .Normal => 1
  | .Overlay => 2
  | .Attention => 4
  | .Title => 8
  | .Status => 16

/-- Serde variant index of an IconType (serde encodes enum variants by
declaration index, not by discriminant). -/
def IconType.tag : IconType → Nat
  | .Normal => 0
  | .Overlay => 1
  | .Attention => 2
  | .Title => 3
  | .Status => 4

/-! ## Agent refresh-coalescing mask protocol (sni-agent.rs, handle_cb)

`IconStats.state` is a `Cell<u8>` observation mask.  `handle_cb` first checks
and sets the bit for the signalled property under the name-map lock, then
spawns a task that re-sets the bit, performs the property read, and updates
the mask on completion.  The three functions below embed those three mask
transitions literally. -/

/-- First block of handle_cb: under the lock, return `none` (handler returns
immediately, no RPC) when the bit for `flag` is already set
(`state.state.get() & (flag as u8) == 0` guards the proceed case), otherwise
set the bit (`nm.state.set(flag as u8 | nm.state.get())`) and proceed. -/
def signalCheckAndSet (mask : Nat) (flag : IconType) : Option Nat :=
  if mask &&& flag.bits == 0 then some (flag.bits ||| mask) else none

/-- Start of the spawned refresh task: `nm.state.set(flag as u8 | nm.state.get())`. -/
def taskStartSet (mask : Nat) (flag : IconType) : Nat :=
  flag.bits ||| mask

/-- Mask update performed when the property read completes.  For the three
pixmap properties the source clears the bit
(`nm.state.set(!(flag as u8) & nm.state.get())`); for Title and Status the
source computes `!(flag as u8) | nm.state.get()` instead.  `!x` on u8 is
`255 ^^^ x`. -/
def completionMaskUpdate (mask : Nat) (flag : IconType) : Nat :=
  match flag with
  | .Normal | .Overlay | .Attention => (255 ^^^ flag.bits) &&& mask
  | .Title | .Status => (255 ^^^ flag.bits) ||| mask

/-! ## Daemon data model (sni-daemon.rs)

The daemon's per-icon state (`NotifierIcon`, file src/bin/sni-daemon/item.rs,
whose definition is not in the checked-in tree) is modelled from the spec's
data-model table: cached category, app id, menu flag, title, status, three
pixmap slots and tooltip.  Bus-connection ownership and signal emission are
not modelled (signals carry no data the claims mention). -/

/-- An SNI pixmap: width, height (u32 values) and raw ARGB32 bytes. -/
structure IconData where
  width : Nat
  height : Nat
  data : List Nat
deriving DecidableEq, Repr

/-- Tooltip payload (field order as declared in the library crate). -/
structure Tooltip where
  icon_data : List IconData
  title : List Nat
  description : List Nat
deriving DecidableEq, Repr

/-- Modelled from the spec: the `ClientEvent` tagged union of the shared
library crate (spec section 3); variant order follows the spec's listing.
Strings are UTF-8 byte lists. -/
inductive ClientEvent
  | Create (category app_id : List Nat) (is_menu : Bool)
  | Title (title : Option (List Nat))
  | Status (status : Option (List Nat))
  | Icon (typ : IconType) (data : List IconData)
  | RemoveIcon (typ : IconType)
  | Tooltip (icon_data : List IconData) (title description : List Nat)
  | RemoveTooltip
  | Destroy
deriving DecidableEq, Repr

/-- Modelled from the spec: the `ServerEvent` tagged union (spec section 3).
The i32 coordinates are embedded as their 32-bit patterns. -/
inductive ServerEvent
  | Activate (x y : Nat)
  | SecondaryActivate (x y : Nat)
  | ContextMenu (x y : Nat)
  | Scroll (delta : Nat) (orientation : List Nat)
deriving DecidableEq, Repr

/-- A guest-to-host wire payload: local id (u64) plus event. -/
structure IconClientEvent where
  id : Nat
  event : ClientEvent
deriving DecidableEq, Repr

/-- A host-to-guest wire payload: local id (u64) plus event. -/
structure IconServerEvent where
  id : Nat
  event : ServerEvent
deriving DecidableEq, Repr

/-- Modelled from the spec: the daemon's cached per-icon state
(`NotifierIcon`), spec section 3 data-model table. -/
structure NotifierIcon where
  app_id : List Nat
  category : List Nat
  is_menu : Bool
  title : Option (List Nat) := none
  status : Option (List Nat) := none
  icon : Option (List IconData) := none
  attention_icon : Option (List IconData) := none
  overlay_icon : Option (List IconData) := none
  tooltip : Option Tooltip := none
deriving DecidableEq, Repr

/-- Daemon process state: `last_index` and the id-keyed icon table
(`HashMap<u64, NotifierIcon>` embedded as an association list). -/
structure DaemonState where
  lastIndex : Nat
  items : List (Nat × NotifierIcon)
deriving DecidableEq, Repr

/-- Initial daemon state (`let mut last_index = 0u64`, empty map). -/
def initDaemonState : DaemonState := ⟨0, []⟩

def lookupItem (st : DaemonState) (id : Nat) : Option NotifierIcon :=
  (st.items.find? (fun p => p.1 == id)).map Prod.snd

def insertItem (st : DaemonState) (id : Nat) (ni : NotifierIcon) : DaemonState :=
  { st with items := (id, ni) :: st.items.filter (fun p => p.1 ≠ id) }

def removeItem (st : DaemonState) (id : Nat) : DaemonState :=
  { st with items := st.items.filter (fun p => p.1 ≠ id) }

def updateItem (st : DaemonState) (id : Nat) (f : NotifierIcon → NotifierIcon) :
    DaemonState :=
  { st with items := st.items.map (fun p => if p.1 = id then (p.1, f p.2) else p) }

/-! ## Border painting (sni-daemon.rs, the Icon arm of client_server)

The Rust closure
`set_pixel(x, y)` computes `base = ((y * item.width + x) * 4) as usize` in
wrapping u32 arithmetic and writes bytes 255,255,0,0 at base..base+3, with
each indexing operation panicking when out of bounds.  The two loop nests
below reproduce the exact sequence of calls, including the wrapping
evaluation of `item.width - 1 - x` and `item.height - 1 - y`. -/

/-- The four border bytes in write order (255, 255, 0, 0). -/
def borderByte : Nat → Nat
  | 0 => 255
  | 1 => 255
  | _ => 0

/-- One `set_pixel(x, y)` call: `none` is the out-of-bounds panic. -/
def setPixel (w : Nat) (d : List Nat) (x y : Nat) : Option (List Nat) :=
  let base := ((y * w + x) * 4) % 4294967296
  if base + 3 < d.length then
    some ((((d.set base 255).set (base + 1) 255).set (base + 2) 0).set (base + 3) 0)
  else none

/-- The pixel coordinates passed to set_pixel, in program order:
`for x in 0..2 { for y in 0..h { set_pixel(x, y); set_pixel(w-1-x, y) } }`
then
`for y in 0..2 { for x in 0..w { set_pixel(x, y); set_pixel(x, h-1-y) } }`,
with `w-1-x` and `h-1-y` evaluated in wrapping u32 arithmetic. -/
def borderWrites (w h : Nat) : List (Nat × Nat) :=
  ((List.range 2).flatMap fun x => (List.range h).flatMap fun y =>
      [(x, y), ((w + 4294967296 - (1 + x)) % 4294967296, y)]) ++
  ((List.range 2).flatMap fun y => (List.range w).flatMap fun x =>
      [(x, y), (x, (h + 4294967296 - (1 + y)) % 4294967296)])

/-- Paint the two-pixel yellow border onto one pixmap; `none` is a panic. -/
def paintIcon (it : IconData) : Option IconData :=
  ((borderWrites it.width it.height).foldlM
      (fun d p => setPixel it.width d p.1 p.2) it.data).map
    (fun d => { it with data := d })

/-- Paint every pixmap of an Icon event (`for item in &mut data`). -/
def paintAll (data : List IconData) : Option (List IconData) :=
  data.mapM paintIcon

/-- The claim's border region: the pixel with linear index k of a w-by-h
image lies in the two outermost rows or the two outermost columns. -/
def isBorderPixel (w h k : Nat) : Bool :=
  decide (k % w < 2) || decide (w ≤ k % w + 2) || decide (k / w < 2) ||
    decide (h ≤ k / w + 2)

/-! ## Daemon event processing (sni-daemon.rs, client_server loop body) -/

/-- The ways the daemon loop terminates fatally on one event. -/
inductive DPanic
  | notMonotonic
  | unknownId
  | badIconType
  | pixmapPanic
deriving DecidableEq, Repr

/-- ASCII bytes of the fixed prefix "org.qubes_os.vm.app_id.". -/
def appIdPfx : List Nat :=
  [111, 114, 103, 46, 113, 117, 98, 101, 115, 95, 111, 115, 46, 118, 109, 46,
   97, 112, 112, 95, 105, 100, 46]

/-- ASCII bytes of the fixed prefix "org.qubes_os.vm.hashed_app_id.". -/
def hashedAppIdPfx : List Nat :=
  [111, 114, 103, 46, 113, 117, 98, 101, 115, 95, 111, 115, 46, 118, 109, 46,
   104, 97, 115, 104, 101, 100, 95, 97, 112, 112, 95, 105, 100, 46]

/-! ## SHA-256 (the sha2 crate's algorithm, i.e. FIPS 180-4 SHA-256)

The daemon hashes the prefixed app id with `Sha256` when it is not a valid
interface name.  The hash is embedded as a pure function over byte lists;
all words are Nats reduced modulo 2^32. -/

/-- Rotate a 32-bit word right by k. -/
def rotr32 (k n : Nat) : Nat := ((n >>> k) ||| (n <<< (32 - k))) % 4294967296

def ssig0 (x : Nat) : Nat := rotr32 7 x ^^^ rotr32 18 x ^^^ (x >>> 3)
def ssig1 (x : Nat) : Nat := rotr32 17 x ^^^ rotr32 19 x ^^^ (x >>> 10)
def bsig0 (x : Nat) : Nat := rotr32 2 x ^^^ rotr32 13 x ^^^ rotr32 22 x
def bsig1 (x : Nat) : Nat := rotr32 6 x ^^^ rotr32 11 x ^^^ rotr32 25 x
def chFn (x y z : Nat) : Nat := (x &&& y) ^^^ ((4294967295 ^^^ x) &&& z)
def majFn (x y z : Nat) : Nat := (x &&& y) ^^^ (x &&& z) ^^^ (y &&& z)

/-- The 64 SHA-256 round constants. -/
def sha256K : List Nat :=
  [1116352408, 1899447441, 3049323471, 3921009573, 961987163,
   1508970993, 2453635748, 2870763221, 3624381080, 310598401,
   607225278, 1426881987, 1925078388, 2162078206, 2614888103,
   3248222580, 3835390401, 4022224774, 264347078, 604807628,
   770255983, 1249150122, 1555081692, 1996064986, 2554220882,
   2821834349, 2952996808, 3210313671, 3336571891, 3584528711,
   113926993, 338241895, 666307205, 773529912, 1294757372,
   1396182291, 1695183700, 1986661051, 2177026350, 2456956037,
   2730485921, 2820302411, 3259730800, 3345764771, 3516065817,
   3600352804, 4094571909, 275423344, 430227734, 506948616,
   659060556, 883997877, 958139571, 1322822218, 1537002063,
   1747873779, 1955562222, 2024104815, 2227730452, 2361852424,
   2428436474, 2756734187, 3204031479, 3329325298]

/-- The initial SHA-256 hash state. -/
def sha256Init : List Nat :=
  [1779033703, 3144134277, 1013904242, 2773480762, 1359893119,
   2600822924, 528734635, 1541459225]

/-- Big-endian 32-bit word from the first four entries of a byte list. -/
def beWord (l : List Nat) : Nat :=
  l.getD 0 0 * 16777216 + l.getD 1 0 * 65536 + l.getD 2 0 * 256 + l.getD 3 0

/-- Big-endian 8-byte encoding of a u64. -/
def be64 (n : Nat) : List Nat :=
  [n / 2 ^ 56 % 256, n / 2 ^ 48 % 256, n / 2 ^ 40 % 256, n / 2 ^ 32 % 256,
   n / 2 ^ 24 % 256, n / 2 ^ 16 % 256, n / 2 ^ 8 % 256, n % 256]

/-- SHA-256 padding: one 0x80 byte, zeros to 56 mod 64, then the bit length
big-endian in 8 bytes. -/
def padMsg (m : List Nat) : List Nat :=
  m ++ 128 :: List.replicate ((64 + 56 - (m.length + 1) % 64) % 64) 0 ++
    be64 (8 * m.length)

/-- Extend a 16-word message schedule by n further words. -/
def extendSchedule : Nat → List Nat → List Nat
  | 0, w => w
  | n + 1, w =>
    let i := w.length
    extendSchedule n (w ++
      [(w.getD (i - 16) 0 + ssig0 (w.getD (i - 15) 0) + w.getD (i - 7) 0 +
        ssig1 (w.getD (i - 2) 0)) % 4294967296])

/-- One SHA-256 compression round applied to the 8-word working state. -/
def compressStep (st : List Nat) (kw : Nat × Nat) : List Nat :=
  match st with
  | [a, b, c, d, e, f, g, h] =>
    let t1 := (h + bsig1 e + chFn e f g + kw.1 + kw.2) % 4294967296
    let t2 := (bsig0 a + majFn a b c) % 4294967296
    [(t1 + t2) % 4294967296, a, b, c, (d + t1) % 4294967296, e, f, g]
  | st => st

/-- Process one 64-byte chunk. -/
def processChunk (h : List Nat) (chunk : List Nat) : List Nat :=
  let w0 := (List.range 16).map fun i => beWord (chunk.drop (4 * i))
  let w := extendSchedule 48 w0
  let st := (sha256K.zip w).foldl compressStep h
  (h.zip st).map fun p => (p.1 + p.2) % 4294967296

/-- Fold the compression function over successive 64-byte chunks. -/
def sha256Rounds : Nat → List Nat → List Nat → List Nat
  | 0, h, _ => h
  | n + 1, h, m => sha256Rounds n (processChunk h (m.take 64)) (m.drop 64)

/-- The SHA-256 digest (32 bytes) of a byte list. -/
def sha256Bytes (m : List Nat) : List Nat :=
  let p := padMsg m
  (sha256Rounds (p.length / 64) sha256Init p).flatMap fun w =>
    [w / 16777216 % 256, w / 65536 % 256, w / 256 % 256, w % 256]

/-! ## Interface-name validation and app-id sanitization (sni-daemon.rs)

`dbus::strings::Interface::new` delegates to libdbus's
`dbus_validate_interface` (the daemon asserts at startup that this
validation is enabled).  Its rules, per the D-Bus specification: nonempty,
at most 255 bytes, at least two dot-separated elements, every element
nonempty, elements made of `[A-Za-z0-9_]` and not beginning with a digit. -/

/-- ASCII byte classifier: a character allowed to start an element. -/
def isElemStart (b : Nat) : Bool :=
  (65 ≤ b && b ≤ 90) || (97 ≤ b && b ≤ 122) || b == 95

/-- ASCII byte classifier: a character allowed inside an element. -/
def isElemByte (b : Nat) : Bool :=
  isElemStart b || (48 ≤ b && b ≤ 57)

/-- Split a byte list at every '.' (ASCII 46). -/
def splitDots : List Nat → List (List Nat)
  | [] => [[]]
  | 46 :: rest => [] :: splitDots rest
  | b :: rest =>
    match splitDots rest with
    | [] => [[b]]
    | e :: es => (b :: e) :: es

/-- One dot-separated element is valid. -/
def validElem : List Nat → Bool
  | [] => false
  | b :: rest => isElemStart b && rest.all isElemByte

/-- libdbus interface-name validity over UTF-8 bytes. -/
def validInterfaceName (s : List Nat) : Bool :=
  decide (0 < s.length) && decide (s.length ≤ 255) &&
    decide (2 ≤ (splitDots s).length) && (splitDots s).all validElem

/-- Two lowercase hex digits of a byte, as ASCII codes (`{:02x}`). -/
def hexByte (b : Nat) : List Nat :=
  [(if b / 16 < 10 then 48 + b / 16 else 87 + b / 16),
   (if b % 16 < 10 then 48 + b % 16 else 87 + b % 16)]

/-- The daemon's app-id sanitization (the Create arm of client_server):
prepend "org.qubes_os.vm.app_id."; keep the result if it is a valid
interface name, otherwise emit "org.qubes_os.vm.hashed_app_id." followed by
the lowercase hex SHA-256 digest of the prefixed candidate's bytes. -/
def sanitizeAppId (app_id : List Nat) : List Nat :=
  let candidate := appIdPfx ++ app_id
  if validInterfaceName candidate then candidate
  else hashedAppIdPfx ++ (sha256Bytes candidate).flatMap hexByte

/-! ## The daemon loop body (sni-daemon.rs, client_server)

One iteration of the daemon's event loop over an already-decoded
`IconClientEvent`.  The bus-registration RPC and signal emission carry no
state the claims mention and are not modelled; `panic!`/`unwrap` are
`Except.error`. -/

/-- Putting a painted pixmap list into the slot selected by the icon type;
Title and Status as pixmap types hit `panic!("guest sent bad icon type")`. -/
def setIconSlot (ni : NotifierIcon) (typ : IconType) (v : Option (List IconData)) :
    Except DPanic NotifierIcon :=
  match typ with
  | .Normal => .ok { ni with icon := v }
  | .Attention => .ok { ni with attention_icon := v }
  | .Overlay => .ok { ni with overlay_icon := v }
  | .Title | .Status => .error .badIconType

/-- One daemon loop iteration. -/
def daemonStep (st : DaemonState) (item : IconClientEvent) :
    Except DPanic DaemonState :=
  match item.event with
  | .Create category app_id _is_menu =>
    if item.id ≤ st.lastIndex then .error .notMonotonic
    else if category.length = 0 then .ok st
    else
      let ni : NotifierIcon :=
        { app_id := sanitizeAppId app_id, category := category,
          is_menu := _is_menu }
      .ok (insertItem { st with lastIndex := item.id } item.id ni)
  | ev =>
    match lookupItem st item.id with
    | none => .error .unknownId
    | some ni =>
      match ev with
      | .Create _ _ _ => .error .unknownId
      | .Title t => .ok (updateItem st item.id fun n => { n with title := t })
      | .Status s => .ok (updateItem st item.id fun n => { n with status := s })
      | .Icon typ data =>
        match paintAll data with
        | none => .error .pixmapPanic
        | some data' =>
          match setIconSlot ni typ (some data') with
          | .error e => .error e
          | .ok ni' => .ok (updateItem st item.id fun _ => ni')
      | .RemoveIcon typ =>
        match setIconSlot ni typ none with
        | .error e => .error e
        | .ok ni' => .ok (updateItem st item.id fun _ => ni')
      | .Tooltip icon_data title description =>
        .ok (updateItem st item.id fun n =>
          { n with tooltip := some ⟨icon_data, title, description⟩ })
      | .RemoveTooltip =>
        .ok (updateItem st item.id fun n => { n with tooltip := none })
      | .Destroy => .ok (removeItem st item.id)

/-- Run the daemon loop over a list of events, stopping at the first panic. -/
def daemonRun (st : DaemonState) : List IconClientEvent → Except DPanic DaemonState
  | [] => .ok st
  | ev :: evs =>
    match daemonStep st ev with
    | .error e => .error e
    | .ok st' => daemonRun st' evs

/-- The ids of the Create events a run accepts (neither panicking nor skipped
for an empty category), in processing order, up to the first panic. -/
def acceptedCreates (st : DaemonState) : List IconClientEvent → List Nat
  | [] => []
  | ev :: evs =>
    match daemonStep st ev with
    | .error _ => []
    | .ok st' =>
      match ev.event with
      | .Create category _ _ =>
        if st.lastIndex < ev.id ∧ category.length ≠ 0 then
          ev.id :: acceptedCreates st' evs
        else acceptedCreates st' evs
      | _ => acceptedCreates st' evs

/-! ## Wire codec (bincode, DefaultOptions with fixint encoding, native =
little endian, trailing bytes rejected; sni-agent.rs send_or_panic/reader and
the matching sni-daemon.rs loop)

Serde/bincode layout: struct fields in declaration order; enum variants as a
u32 variant index; u32/u64/i32 as fixed-width little-endian; `Vec`/`String`
as a u64 length followed by the elements; `Option` as one tag byte;
`bool` as one byte that must be 0 or 1; `String` contents must be valid
UTF-8. -/

/-- Little-endian 4-byte encoding of a u32 value. -/
def u32le (n : Nat) : List Nat :=
  [n % 256, n / 256 % 256, n / 65536 % 256, n / 16777216 % 256]

/-- Little-endian 8-byte encoding of a u64 value. -/
def u64le (n : Nat) : List Nat :=
  [n % 256, n / 256 % 256, n / 65536 % 256, n / 16777216 % 256,
   n / 4294967296 % 256, n / 1099511627776 % 256,
   n / 281474976710656 % 256, n / 72057594037927936 % 256]

/-- One step of the UTF-8 acceptance automaton used by Rust str validation
(core::str): state 0 expects a lead byte; states 1-3 expect that many
unconstrained continuation bytes (80-BF); states 4-7 encode the constrained
second byte after lead bytes E0 (A0-BF), ED (80-9F, excluding surrogates),
F0 (90-BF) and F4 (80-8F, capping at U+10FFFF), rejecting overlong forms. -/
def utf8Step : Nat → Nat → Option Nat
  | 0, b =>
    if b ≤ 127 then some 0
    else if 194 ≤ b ∧ b ≤ 223 then some 1
    else if b = 224 then some 4
    else if 225 ≤ b ∧ b ≤ 236 then some 2
    else if b = 237 then some 5
    else if 238 ≤ b ∧ b ≤ 239 then some 2
    else if b = 240 then some 6
    else if 241 ≤ b ∧ b ≤ 243 then some 3
    else if b = 244 then some 7
    else none
  | 1, b => if 128 ≤ b ∧ b ≤ 191 then some 0 else none
  | 2, b => if 128 ≤ b ∧ b ≤ 191 then some 1 else none
  | 3, b => if 128 ≤ b ∧ b ≤ 191 then some 2 else none
  | 4, b => if 160 ≤ b ∧ b ≤ 191 then some 1 else none
  | 5, b => if 128 ≤ b ∧ b ≤ 159 then some 1 else none
  | 6, b => if 144 ≤ b ∧ b ≤ 191 then some 2 else none
  | 7, b => if 128 ≤ b ∧ b ≤ 143 then some 2 else none
  | _, _ => none

/-- Run the UTF-8 automaton; accept only if no sequence is left open. -/
def utf8Run : Nat → List Nat → Bool
  | st, [] => st == 0
  | st, b :: rest =>
    match utf8Step st b with
    | none => false
    | some st2 => utf8Run st2 rest

/-- Rust str UTF-8 validity over bytes (core::str validation). -/
def validUtf8 (s : List Nat) : Bool := utf8Run 0 s

/-- Encode a Rust String (its UTF-8 bytes): u64 byte length, then the bytes. -/
def encStr (s : List Nat) : List Nat := u64le s.length ++ s

/-- Encode an Option: a 0/1 tag byte then the payload. -/
def encOpt (enc : α → List Nat) : Option α → List Nat
  | none => [0]
  | some x => 1 :: enc x

/-- Encode a bool as one byte. -/
def encBool (b : Bool) : List Nat := [if b then 1 else 0]

/-- Encode an IconData: two u32 fields then the byte vector. -/
def encIconData (d : IconData) : List Nat :=
  u32le d.width ++ u32le d.height ++ u64le d.data.length ++ d.data

/-- Encode a Vec: u64 length, then the elements in order. -/
def encVec (enc : α → List Nat) (xs : List α) : List Nat :=
  u64le xs.length ++ (xs.map enc).flatten

/-- Encode an IconType (u32 serde variant index). -/
def encIconType (t : IconType) : List Nat := u32le t.tag

/-- Encode a ClientEvent: u32 variant index, then the fields in order. -/
def encClientEvent : ClientEvent → List Nat
  | .Create category app_id is_menu =>
    u32le 0 ++ encStr category ++ encStr app_id ++ encBool is_menu
  | .Title t => u32le 1 ++ encOpt encStr t
  | .Status s => u32le 2 ++ encOpt encStr s
  | .Icon typ data => u32le 3 ++ encIconType typ ++ encVec encIconData data
  | .RemoveIcon typ => u32le 4 ++ encIconType typ
  | .Tooltip icon_data title description =>
    u32le 5 ++ encVec encIconData icon_data ++ encStr title ++ encStr description
  | .RemoveTooltip => u32le 6
  | .Destroy => u32le 7

/-- Encode a ServerEvent: u32 variant index, then the fields in order. -/
def encServerEvent : ServerEvent → List Nat
  | .Activate x y => u32le 0 ++ u32le x ++ u32le y
  | .SecondaryActivate x y => u32le 1 ++ u32le x ++ u32le y
  | .ContextMenu x y => u32le 2 ++ u32le x ++ u32le y
  | .Scroll delta orientation => u32le 3 ++ u32le delta ++ encStr orientation

/-- Encode the framed guest-to-host payload (`options.serialize` in
send_or_panic): the u64 id then the event. -/
def encodeClient (e : IconClientEvent) : List Nat :=
  u64le e.id ++ encClientEvent e.event

/-- Encode the framed host-to-guest payload. -/
def encodeServer (e : IconServerEvent) : List Nat :=
  u64le e.id ++ encServerEvent e.event

/-! Decoders: each reads a value off the front of a byte list and returns the
rest; `none` is a bincode deserialization error. -/

def readU32 : List Nat → Option (Nat × List Nat)
  | b0 :: b1 :: b2 :: b3 :: rest =>
    some (b0 + 256 * b1 + 65536 * b2 + 16777216 * b3, rest)
  | _ => none

def readU64 : List Nat → Option (Nat × List Nat)
  | b0 :: b1 :: b2 :: b3 :: b4 :: b5 :: b6 :: b7 :: rest =>
    some (b0 + 256 * b1 + 65536 * b2 + 16777216 * b3 + 4294967296 * b4 +
      1099511627776 * b5 + 281474976710656 * b6 + 72057594037927936 * b7, rest)
  | _ => none

def readBytesN : Nat → List Nat → Option (List Nat × List Nat)
  | 0, l => some ([], l)
  | _ + 1, [] => none
  | n + 1, b :: l => (readBytesN n l).map fun p => (b :: p.1, p.2)

def readStr (l : List Nat) : Option (List Nat × List Nat) :=
  match readU64 l with
  | none => none
  | some (n, l) =>
    match readBytesN n l with
    | none => none
    | some (s, l) => if validUtf8 s then some (s, l) else none

def readOpt (rd : List Nat → Option (α × List Nat)) (l : List Nat) :
    Option (Option α × List Nat) :=
  match l with
  | 0 :: rest => some (none, rest)
  | 1 :: rest => (rd rest).map fun p => (some p.1, p.2)
  | _ => none

def readBool : List Nat → Option (Bool × List Nat)
  | 0 :: rest => some (false, rest)
  | 1 :: rest => some (true, rest)
  | _ => none

def readIconData (l : List Nat) : Option (IconData × List Nat) :=
  match readU32 l with
  | none => none
  | some (w, l) =>
    match readU32 l with
    | none => none
    | some (h, l) =>
      match readU64 l with
      | none => none
      | some (n, l) =>
        match readBytesN n l with
        | none => none
        | some (d, l) => some (⟨w, h, d⟩, l)

def readVecN (rd : List Nat → Option (α × List Nat)) :
    Nat → List Nat → Option (List α × List Nat)
  | 0, l => some ([], l)
  | n + 1, l =>
    match rd l with
    | none => none
    | some (x, l) =>
      match readVecN rd n l with
      | none => none
      | some (xs, l) => some (x :: xs, l)

def readVec (rd : List Nat → Option (α × List Nat)) (l : List Nat) :
    Option (List α × List Nat) :=
  match readU64 l with
  | none => none
  | some (n, l) => readVecN rd n l

def readIconType (l : List Nat) : Option (IconType × List Nat) :=
  match readU32 l with
  | none => none
  | some (t, l) =>
    match t with
    | 0 => some (.Normal, l)
    | 1 => some (.Overlay, l)
    | 2 => some (.Attention, l)
    | 3 => some (.Title, l)
    | 4 => some (.Status, l)
    | _ => none

def readClientEvent (l : List Nat) : Option (ClientEvent × List Nat) :=
  match readU32 l with
  | none => none
  | some (t, l) =>
    match t with
    | 0 =>
      match readStr l with
      | none => none
      | some (category, l) =>
        match readStr l with
        | none => none
        | some (app_id, l) =>
          match readBool l with
          | none => none
          | some (is_menu, l) => some (.Create category app_id is_menu, l)
    | 1 =>
      match readOpt readStr l with
      | none => none
      | some (x, l) => some (.Title x, l)
    | 2 =>
      match readOpt readStr l with
      | none => none
      | some (x, l) => some (.Status x, l)
    | 3 =>
      match readIconType l with
      | none => none
      | some (typ, l) =>
        match readVec readIconData l with
        | none => none
        | some (data, l) => some (.Icon typ data, l)
    | 4 =>
      match readIconType l with
      | none => none
      | some (typ, l) => some (.RemoveIcon typ, l)
    | 5 =>
      match readVec readIconData l with
      | none => none
      | some (icon_data, l) =>
        match readStr l with
        | none => none
        | some (title, l) =>
          match readStr l with
          | none => none
          | some (description, l) =>
            some (.Tooltip icon_data title description, l)
    | 6 => some (.RemoveTooltip, l)
    | 7 => some (.Destroy, l)
    | _ => none

def readServerEvent (l : List Nat) : Option (ServerEvent × List Nat) :=
  match readU32 l with
  | none => none
  | some (t, l) =>
    match t with
    | 0 =>
      match readU32 l with
      | none => none
      | some (x, l) =>
        match readU32 l with
        | none => none
        | some (y, l) => some (.Activate x y, l)
    | 1 =>
      match readU32 l with
      | none => none
      | some (x, l) =>
        match readU32 l with
        | none => none
        | some (y, l) => some (.SecondaryActivate x y, l)
    | 2 =>
      match readU32 l with
      | none => none
      | some (x, l) =>
        match readU32 l with
        | none => none
        | some (y, l) => some (.ContextMenu x y, l)
    | 3 =>
      match readU32 l with
      | none => none
      | some (delta, l) =>
        match readStr l with
        | none => none
        | some (orientation, l) => some (.Scroll delta orientation, l)
    | _ => none

/-- Full payload decode with `reject_trailing_bytes`: every byte must be
consumed. -/
def decodeClient (l : List Nat) : Option IconClientEvent :=
  match readU64 l with
  | none => none
  | some (id, l) =>
    match readClientEvent l with
    | some (ev, []) => some ⟨id, ev⟩
    | _ => none

/-- Full payload decode with `reject_trailing_bytes` for ServerEvents. -/
def decodeServer (l : List Nat) : Option IconServerEvent :=
  match readU64 l with
  | none => none
  | some (id, l) =>
    match readServerEvent l with
    | some (ev, []) => some ⟨id, ev⟩
    | _ => none

/-! Representability: the numeric fields fit their Rust machine types, byte
vectors hold bytes, and strings are valid UTF-8 (every value a running
process can hold satisfies this). -/

def wfStr (s : List Nat) : Bool :=
  s.all (· < 256) && validUtf8 s && decide (s.length < 2 ^ 64)

def wfIconData (d : IconData) : Bool :=
  decide (d.width < 2 ^ 32) && decide (d.height < 2 ^ 32) &&
    d.data.all (· < 256) && decide (d.data.length < 2 ^ 64)

def wfIconVec (v : List IconData) : Bool :=
  v.all wfIconData && decide (v.length < 2 ^ 64)

def wfClientEvent : ClientEvent → Bool
  | .Create category app_id _ => wfStr category && wfStr app_id
  | .Title t => t.elim true wfStr
  | .Status s => s.elim true wfStr
  | .Icon _ data => wfIconVec data
  | .RemoveIcon _ => true
  | .Tooltip icon_data title description =>
    wfIconVec icon_data && wfStr title && wfStr description
  | .RemoveTooltip => true
  | .Destroy => true

def wfServerEvent : ServerEvent → Bool
  | .Activate x y => decide (x < 2 ^ 32) && decide (y < 2 ^ 32)
  | .SecondaryActivate x y => decide (x < 2 ^ 32) && decide (y < 2 ^ 32)
  | .ContextMenu x y => decide (x < 2 ^ 32) && decide (y < 2 ^ 32)
  | .Scroll delta orientation => decide (delta < 2 ^ 32) && wfStr orientation

def wfClient (e : IconClientEvent) : Bool :=
  decide (e.id < 2 ^ 64) && wfClientEvent e.event

def wfServer (e : IconServerEvent) : Bool :=
  decide (e.id < 2 ^ 64) && wfServerEvent e.event

/-! ## Frame reading (sni-agent.rs reader, sni-daemon.rs client_server)

Per frame: read the u32 little-endian size; panic when it exceeds
`0x80_000_000`; read exactly that many payload bytes (EOF is fatal);
deserialize, rejecting trailing bytes (failure is fatal). -/

inductive FrameError
  | excessiveLength
  | eof
  | malformed
deriving DecidableEq, Repr

/-- One frame-read step.  `size` is the decoded u32 length prefix and
`stream` the bytes following it; on success the decoded payload is
returned. -/
def frameStep (decode : List Nat → Option α) (size : Nat) (stream : List Nat) :
    Except FrameError α :=
  if size > 0x80000000 then .error .excessiveLength
  else if stream.length < size then .error .eof
  else
    match decode (stream.take size) with
    | some x => .ok x
    | none => .error .malformed

/-! ## Agent watcher impersonation: the NameOwnerChanged handler
(sni-agent.rs, Watcher::new, name_owner_changed_cb)

The watcher keeps two `HashSet<String>`s (items, hosts).  On every
NameOwnerChanged(name, old, new) from the bus daemon the callback runs
`hosts.remove(&name)` unconditionally, and then — only when `new_owner` is
empty AND `items.remove(&name)` returned true — emits
StatusNotifierItemUnregistered(name) followed by a PropertiesChanged
invalidating RegisteredStatusNotifierItems.  Sets are embedded as duplicate-
free lists; `HashSet::remove` is erase plus a containment result. -/

structure WatcherState where
  items : List String
  hosts : List String
deriving DecidableEq, Repr

inductive WSignal
  | itemUnregistered (name : String)
  | propertiesInvalidated
deriving DecidableEq, Repr

/-- HashSet::remove: the set without the element, and whether it was there. -/
def hashSetRemove (l : List String) (x : String) : List String × Bool :=
  (l.erase x, l.contains x)

/-- The NameOwnerChanged callback.  `old` is bound but never inspected
(the Rust pattern binds `old_owner: _`). -/
def nameOwnerChangedCb (st : WatcherState) (name _old new : String) :
    WatcherState × List WSignal :=
  let hosts' := (hashSetRemove st.hosts name).1
  if new.isEmpty then
    let r := hashSetRemove st.items name
    if r.2 then
      (⟨r.1, hosts'⟩, [.itemUnregistered name, .propertiesInvalidated])
    else (⟨r.1, hosts'⟩, [])
  else (⟨st.items, hosts'⟩, [])

/-! # Theorems -/

/-- Claim C1.  The claim states that the agent's change-signal handler
returns immediately when the coalescing bit for property P is set, otherwise
sets the bit, performs one property read, and clears the bit for P when the
read completes.  The code is as claimed for the three pixmap properties, but
for Title and Status the completion update is `!(flag as u8) | mask`, which
leaves the bit for P set (and sets every other bit): after a Title refresh
completes on an icon whose mask was 0, the mask is 255, the Title bit is
still set, and every further change signal for that icon — of any of the
five properties — is dropped.  The spec itself records this as a source bug
(design note 5) and specifies clearing as the intent, so the claim is right
and the code wrong.  This theorem evaluates the embedded handler at the
failing input; the last conjunct shows the pixmap path clearing correctly by
contrast. -/
theorem c1_title_completion_leaves_bit_set :
    signalCheckAndSet 0 IconType.Title = some 8 ∧
    completionMaskUpdate (taskStartSet 8 IconType.Title) IconType.Title = 255 ∧
    255 &&& IconType.Title.bits ≠ 0 ∧
    signalCheckAndSet 255 IconType.Title = none ∧
    signalCheckAndSet 255 IconType.Normal = none ∧
    completionMaskUpdate (taskStartSet 4 IconType.Attention) IconType.Attention = 0 := by
  decide

/-- Claim C9.  An Icon or RemoveIcon event whose icon type is Title or
Status is rejected fatally by the daemon — the step never yields a successor
state (hence neither stores state nor emits a signal), for every daemon
state, id and pixmap payload. -/
theorem c9_title_status_pixmap_types_fatal (st : DaemonState) (id : Nat)
    (data : List IconData) :
    (daemonStep st ⟨id, .Icon .Title data⟩).isOk = false ∧
    (daemonStep st ⟨id, .Icon .Status data⟩).isOk = false ∧
    (daemonStep st ⟨id, .RemoveIcon .Title⟩).isOk = false ∧
    (daemonStep st ⟨id, .RemoveIcon .Status⟩).isOk = false := by
  refine ⟨?_, ?_, ?_, ?_⟩ <;>
    · simp only [daemonStep]
      rcases lookupItem st id with _ | ni
      · rfl
      · simp only
        first
          | rfl
          | (rcases paintAll data with _ | d <;> simp [setIconSlot, Except.isOk, Except.toBool])

/-- Claim C7.  On every NameOwnerChanged(name, old, new): the name is
removed from the hosts set unconditionally (whatever old and new are), and
it is removed from the items set — with StatusNotifierItemUnregistered(name)
and the PropertiesChanged invalidation both emitted, in that order — exactly
when new is empty and the name was in the items set. -/
theorem c7_name_owner_changed (items hosts : List String)
    (name old new : String) (hi : items.Nodup) (hh : hosts.Nodup) :
    (name ∉ (nameOwnerChangedCb ⟨items, hosts⟩ name old new).1.hosts ∧
      ∀ m, m ≠ name →
        (m ∈ (nameOwnerChangedCb ⟨items, hosts⟩ name old new).1.hosts ↔ m ∈ hosts)) ∧
    ((new = "" ∧ name ∈ items) →
      (name ∉ (nameOwnerChangedCb ⟨items, hosts⟩ name old new).1.items ∧
        (∀ m, m ≠ name →
          (m ∈ (nameOwnerChangedCb ⟨items, hosts⟩ name old new).1.items ↔ m ∈ items)) ∧
        (nameOwnerChangedCb ⟨items, hosts⟩ name old new).2 =
          [.itemUnregistered name, .propertiesInvalidated])) ∧
    (¬(new = "" ∧ name ∈ items) →
      (nameOwnerChangedCb ⟨items, hosts⟩ name old new).1.items = items ∧
        (nameOwnerChangedCb ⟨items, hosts⟩ name old new).2 = []) := by
  classical
  have hache : ∀ (l : List String) (x m : String), m ≠ x →
      (m ∈ l.erase x ↔ m ∈ l) := fun _ _ _ hmx => List.mem_erase_of_ne hmx
  have hostsEq : (nameOwnerChangedCb ⟨items, hosts⟩ name old new).1.hosts =
      hosts.erase name := by
    simp only [nameOwnerChangedCb, hashSetRemove]
    split <;> [split <;> rfl; rfl]
  refine ⟨⟨by rw [hostsEq]; exact hh.not_mem_erase,
      fun m hm => by rw [hostsEq]; exact hache hosts name m hm⟩, ?_, ?_⟩
  · rintro ⟨hnew, hmem⟩
    have hnew' : new.isEmpty = true := by
      rw [hnew]
      rfl
    have hmem' : items.contains name = true := by
      simpa using hmem
    have cbEq : nameOwnerChangedCb ⟨items, hosts⟩ name old new =
        (⟨items.erase name, hosts.erase name⟩,
          [.itemUnregistered name, .propertiesInvalidated]) := by
      simp [nameOwnerChangedCb, hashSetRemove, hnew', hmem', hmem]
    rw [cbEq]
    exact ⟨hi.not_mem_erase, fun m hm => hache items name m hm, rfl⟩
  · intro hneg
    by_cases hnew : new = ""
    · have hmem : name ∉ items := fun h => hneg ⟨hnew, h⟩
      have hmem' : items.contains name = false := by
        simpa using hmem
      have hnew' : new.isEmpty = true := by
        rw [hnew]
        rfl
      have cbEq : nameOwnerChangedCb ⟨items, hosts⟩ name old new =
          (⟨items.erase name, hosts.erase name⟩, []) := by
        simp [nameOwnerChangedCb, hashSetRemove, hnew', hmem', hmem]
      rw [cbEq]
      exact ⟨List.erase_of_not_mem hmem, rfl⟩
    · have hnew' : new.isEmpty = false := by
        rw [Bool.eq_false_iff]
        intro hb
        exact hnew ((String.isEmpty_iff new).mp hb)
      have cbEq : nameOwnerChangedCb ⟨items, hosts⟩ name old new =
          (⟨items, hosts.erase name⟩, []) := by
        simp [nameOwnerChangedCb, hashSetRemove, hnew']
      rw [cbEq]
      exact ⟨rfl, rfl⟩

/-- Witness for C7 at a concrete input. -/
theorem c7_name_owner_changed_witness :
    ["a", "b"].Nodup ∧ ["h"].Nodup ∧
      (("" = "" ∧ "a" ∈ ["a", "b"]) →
        ("a" ∉ (nameOwnerChangedCb ⟨["a", "b"], ["h"]⟩ "a" ":1.7" "").1.items ∧
          (∀ m, m ≠ "a" →
            (m ∈ (nameOwnerChangedCb ⟨["a", "b"], ["h"]⟩ "a" ":1.7" "").1.items ↔
              m ∈ ["a", "b"])) ∧
          (nameOwnerChangedCb ⟨["a", "b"], ["h"]⟩ "a" ":1.7" "").2 =
            [.itemUnregistered "a", .propertiesInvalidated])) := by
  refine ⟨by decide, by decide, ?_⟩
  exact (c7_name_owner_changed ["a", "b"] ["h"] "a" ":1.7" "" (by decide) (by decide)).2.1

/-- Create processing written out (definitional). -/
theorem daemonStep_create_eq (st : DaemonState) (id : Nat) (c a : List Nat)
    (m : Bool) :
    daemonStep st ⟨id, .Create c a m⟩ =
      if id ≤ st.lastIndex then .error .notMonotonic
      else if c.length = 0 then .ok st
      else .ok (insertItem { st with lastIndex := id } id
        { app_id := sanitizeAppId a, category := c, is_menu := m }) := rfl

/-- A successful daemon step never decreases `last_index`. -/
theorem daemonStep_lastIndex_mono {st st' : DaemonState} {ev : IconClientEvent}
    (h : daemonStep st ev = .ok st') : st.lastIndex ≤ st'.lastIndex := by
  rcases ev with ⟨id, e⟩
  cases e
  case Create c a m =>
    rw [daemonStep_create_eq] at h
    split at h
    · cases h
    · split at h
      · cases h
        exact Nat.le_refl _
      · cases h
        simp only [insertItem]
        omega
  case Icon typ data =>
    simp only [daemonStep] at h
    rcases hlk : lookupItem st id with _ | ni <;>
      simp only [hlk, reduceCtorEq] at h
    rcases hpa : paintAll data with _ | d <;>
      simp only [hpa, reduceCtorEq] at h
    rcases hsl : setIconSlot ni typ (some d) with e | ni' <;>
      simp only [hsl, reduceCtorEq, Except.ok.injEq] at h
    subst h
    exact Nat.le_refl _
  case RemoveIcon typ =>
    simp only [daemonStep] at h
    rcases hlk : lookupItem st id with _ | ni <;>
      simp only [hlk, reduceCtorEq] at h
    rcases hsl : setIconSlot ni typ none with e | ni' <;>
      simp only [hsl, reduceCtorEq, Except.ok.injEq] at h
    subst h
    exact Nat.le_refl _
  all_goals
    simp only [daemonStep] at h
    rcases hlk : lookupItem st id with _ | ni <;>
      simp only [hlk, reduceCtorEq, Except.ok.injEq] at h
  all_goals subst h
  all_goals exact Nat.le_refl _

/-- Every id accepted later in a run exceeds the current `last_index`. -/
theorem acceptedCreates_mem {evs : List IconClientEvent} :
    ∀ st x, x ∈ acceptedCreates st evs → st.lastIndex < x := by
  induction evs with
  | nil => intro st x hx; simp [acceptedCreates] at hx
  | cons ev evs ih =>
    intro st x hx
    simp only [acceptedCreates] at hx
    rcases hstep : daemonStep st ev with e | st' <;> rw [hstep] at hx
    · simp at hx
    · rcases ev with ⟨id, e⟩
      rcases e
      case Create c a m =>
        simp only at hx
        by_cases hacc : st.lastIndex < id ∧ c.length ≠ 0
        · rw [if_pos hacc] at hx
          have hlast : st'.lastIndex = id := by
            rw [daemonStep_create_eq] at hstep
            rw [if_neg (by omega), if_neg hacc.2] at hstep
            cases hstep
            simp [insertItem]
          rcases List.mem_cons.mp hx with rfl | hx'
          · exact hacc.1
          · have := ih st' x hx'
            omega
        · rw [if_neg hacc] at hx
          have := ih st' x hx
          have := daemonStep_lastIndex_mono hstep
          omega
      all_goals
        simp only at hx
        have := ih st' x hx
        have := daemonStep_lastIndex_mono hstep
        omega

/-- The accepted-Create id sequence of any run is strictly increasing. -/
theorem acceptedCreates_chain (evs : List IconClientEvent) :
    ∀ st, List.Chain' (· < ·) (acceptedCreates st evs) := by
  induction evs with
  | nil => intro st; simp [acceptedCreates]
  | cons ev evs ih =>
    intro st
    simp only [acceptedCreates]
    rcases hstep : daemonStep st ev with e | st'
    · exact List.chain'_nil
    · rcases ev with ⟨id, e⟩
      rcases e
      case Create c a m =>
        simp only
        by_cases hacc : st.lastIndex < id ∧ c.length ≠ 0
        · rw [if_pos hacc]
          refine List.chain'_cons'.mpr ⟨?_, ih st'⟩
          intro y hy
          have hymem : y ∈ acceptedCreates st' evs := List.mem_of_mem_head? hy
          have hlast : st'.lastIndex = id := by
            rw [daemonStep_create_eq] at hstep
            rw [if_neg (by omega), if_neg hacc.2] at hstep
            cases hstep
            simp [insertItem]
          have := acceptedCreates_mem st' y hymem
          omega
        · rw [if_neg hacc]
          exact ih st'
      all_goals simpa using ih st'

/-- Counterexample to claim C2 as stated.  The claim's final clause says two
consecutive Create events with the same id always cause an abort, but a
Create that is skipped for an empty category does not raise the daemon's
`last_index` floor, so a second Create reusing its id is processed without
abort: the run below (Create id=5 with empty category, then Create id=5 with
category "x") completes successfully. -/
theorem c2_counterexample_same_id_no_abort :
    (daemonRun initDaemonState
      [⟨5, .Create [] [120] false⟩, ⟨5, .Create [120] [120] false⟩]).isOk = true := by
  decide

/-- Claim C2 (amended).  The ids of accepted Create events are strictly
increasing over every event sequence, and a Create panics exactly when its
id is at most the highest previously accepted Create id (`last_index`,
which starts at 0 and is raised only by accepted Creates); consequently two
consecutive Create events with the same id cause an abort provided the first
of them was accepted (id above the floor and nonempty category) — a Create
skipped for an empty category does not raise the floor, so its id may be
reused without abort. -/
theorem c2_create_id_monotonicity :
    (∀ (evs : List IconClientEvent) (st : DaemonState),
      List.Chain' (· < ·) (acceptedCreates st evs)) ∧
    (∀ (st : DaemonState) (id : Nat) (c a : List Nat) (m : Bool),
      daemonStep st ⟨id, .Create c a m⟩ = .error .notMonotonic ↔
        id ≤ st.lastIndex) ∧
    (∀ (st st' : DaemonState) (id : Nat) (c a : List Nat) (m : Bool)
        (c' a' : List Nat) (m' : Bool),
      st.lastIndex < id → c.length ≠ 0 →
      daemonStep st ⟨id, .Create c a m⟩ = .ok st' →
      daemonStep st' ⟨id, .Create c' a' m'⟩ = .error .notMonotonic) := by
  refine ⟨fun evs st => acceptedCreates_chain evs st, ?_, ?_⟩
  · intro st id c a m
    rw [daemonStep_create_eq]
    constructor
    · intro h
      by_contra hgt
      rw [if_neg hgt] at h
      split at h <;> cases h
    · intro h
      rw [if_pos h]
  · intro st st' id c a m c' a' m' hgt hc h
    rw [daemonStep_create_eq] at h
    rw [if_neg (by omega), if_neg hc] at h
    cases h
    rw [daemonStep_create_eq]
    rw [if_pos (by simp [insertItem])]

/-- Witness for C2 (amended) at a concrete input: after the daemon accepts
Create id=5 (category "x", app id "y"), a second Create id=5 panics. -/
theorem c2_create_id_monotonicity_witness :
    initDaemonState.lastIndex < 5 ∧ ([120] : List Nat).length ≠ 0 ∧
    daemonStep initDaemonState ⟨5, .Create [120] [121] false⟩ =
      .ok (insertItem { initDaemonState with lastIndex := 5 } 5
        { app_id := sanitizeAppId [121], category := [120], is_menu := false }) ∧
    daemonStep
      (insertItem { initDaemonState with lastIndex := 5 } 5
        { app_id := sanitizeAppId [121], category := [120], is_menu := false })
      ⟨5, .Create [122] [123] true⟩ = .error .notMonotonic := by
  refine ⟨by decide, by decide, by rfl, ?_⟩
  exact c2_create_id_monotonicity.2.2 initDaemonState _ 5 [120] [121] false
    [122] [123] true (by decide) (by decide) (by rfl)

/-- One compression round preserves the working-state length. -/
theorem compressStep_length (st : List Nat) (kw : Nat × Nat) :
    (compressStep st kw).length = st.length := by
  simp only [compressStep]
  split <;> simp_all

/-- Folding compression rounds preserves the working-state length. -/
theorem foldl_compressStep_length (l : List (Nat × Nat)) :
    ∀ st : List Nat, (l.foldl compressStep st).length = st.length := by
  induction l with
  | nil => intro st; rfl
  | cons kw l ih =>
    intro st
    simp only [List.foldl_cons]
    rw [ih, compressStep_length]

/-- Chunk processing preserves the hash-state length. -/
theorem processChunk_length (h c : List Nat) :
    (processChunk h c).length = h.length := by
  simp only [processChunk, List.length_map, List.length_zip,
    foldl_compressStep_length]
  omega

/-- Any number of chunk rounds preserves the hash-state length. -/
theorem sha256Rounds_length (n : Nat) :
    ∀ h m : List Nat, (sha256Rounds n h m).length = h.length := by
  induction n with
  | zero => intro h m; rfl
  | succ n ih =>
    intro h m
    simp only [sha256Rounds]
    rw [ih, processChunk_length]

/-- Flattening constant-size blocks multiplies the length. -/
theorem flatMap_const_length (f : α → List β) (k : Nat)
    (hf : ∀ x, (f x).length = k) :
    ∀ l : List α, (l.flatMap f).length = k * l.length := by
  intro l
  induction l with
  | nil => simp
  | cons x l ih =>
    simp only [List.flatMap_cons, List.length_append, ih, hf, List.length_cons]
    ring

/-- The SHA-256 digest is always 32 bytes. -/
theorem sha256Bytes_length (m : List Nat) : (sha256Bytes m).length = 32 := by
  simp only [sha256Bytes]
  rw [flatMap_const_length
    (fun w => [w / 16777216 % 256, w / 65536 % 256, w / 256 % 256, w % 256]) 4
    (fun _ => rfl), sha256Rounds_length]
  rfl

/-- Every digest byte is below 256. -/
theorem sha256Bytes_lt (m : List Nat) : ∀ b ∈ sha256Bytes m, b < 256 := by
  intro b hb
  simp only [sha256Bytes, List.mem_flatMap, List.mem_cons, List.mem_singleton,
    List.not_mem_nil, or_false] at hb
  obtain ⟨w, -, hw⟩ := hb
  rcases hw with h | h | h | h <;> subst h <;> exact Nat.mod_lt _ (by omega)

/-- Hex encoding of a byte yields two lowercase-hex ASCII characters. -/
theorem hexByte_chars (b : Nat) (hb : b < 256) :
    ∀ c ∈ hexByte b, (48 ≤ c ∧ c ≤ 57) ∨ (97 ≤ c ∧ c ≤ 102) := by
  intro c hc
  have h1 : b / 16 < 16 := by omega
  have h2 : b % 16 < 16 := by omega
  simp only [hexByte, List.mem_cons, List.mem_singleton, List.not_mem_nil,
    or_false] at hc
  rcases hc with h | h <;> subst h <;> split <;> omega

/-- Claim C3.  The daemon prepends "org.qubes_os.vm.app_id." to the app_id
of every Create event; when the prefixed string is a valid interface name it
is published unchanged, and otherwise the published Id is
"org.qubes_os.vm.hashed_app_id." followed by exactly 64 lowercase
hexadecimal ASCII characters (digits and a-f) encoding the SHA-256 digest
of the prefixed candidate's bytes. -/
theorem c3_app_id_sanitization (a : List Nat) :
    (validInterfaceName (appIdPfx ++ a) = true →
      sanitizeAppId a = appIdPfx ++ a) ∧
    (validInterfaceName (appIdPfx ++ a) = false →
      sanitizeAppId a =
        hashedAppIdPfx ++ (sha256Bytes (appIdPfx ++ a)).flatMap hexByte ∧
      ((sha256Bytes (appIdPfx ++ a)).flatMap hexByte).length = 64 ∧
      ∀ c ∈ (sha256Bytes (appIdPfx ++ a)).flatMap hexByte,
        (48 ≤ c ∧ c ≤ 57) ∨ (97 ≤ c ∧ c ≤ 102)) := by
  constructor
  · intro h
    simp [sanitizeAppId, h]
  · intro h
    refine ⟨by simp [sanitizeAppId, h], ?_, ?_⟩
    · rw [flatMap_const_length hexByte 2 (fun _ => rfl), sha256Bytes_length]
    · intro c hc
      simp only [List.mem_flatMap] at hc
      obtain ⟨b, hb, hcb⟩ := hc
      exact hexByte_chars b (sha256Bytes_lt _ b hb) c hcb

/-- Witness for C3 at concrete inputs: app id "y" keeps its prefixed form;
app id "!" (prefixed form invalid: '!' may not appear in an interface name)
is hashed. -/
theorem c3_app_id_sanitization_witness :
    (validInterfaceName (appIdPfx ++ [121]) = true ∧
      sanitizeAppId [121] = appIdPfx ++ [121]) ∧
    (validInterfaceName (appIdPfx ++ [33]) = false ∧
      sanitizeAppId [33] =
        hashedAppIdPfx ++ (sha256Bytes (appIdPfx ++ [33])).flatMap hexByte ∧
      ((sha256Bytes (appIdPfx ++ [33])).flatMap hexByte).length = 64 ∧
      ∀ c ∈ (sha256Bytes (appIdPfx ++ [33])).flatMap hexByte,
        (48 ≤ c ∧ c ≤ 57) ∨ (97 ≤ c ∧ c ≤ 102)) :=
  ⟨⟨by decide, (c3_app_id_sanitization [121]).1 (by decide)⟩,
   ⟨by decide, (c3_app_id_sanitization [33]).2 (by decide)⟩⟩

/-- Counterexample to claim C8 as stated, at explicit concrete inputs.
First conjunct: sanitizing the spec's own example app id
"Not A Valid DBus Name!" yields a hashed name whose final element starts
with the digit '1' (the digest begins 19cb…), which is not a valid D-Bus
interface name — so sanitization does not always yield a valid interface
name.  Second conjunct: for the app id "Foo", whose prefixed form is valid,
applying sanitization twice re-prepends the prefix and so differs from
applying it once — sanitization is not idempotent even on valid inputs. -/
theorem c8_counterexample :
    validInterfaceName
      (sanitizeAppId
        [78, 111, 116, 32, 65, 32, 86, 97, 108, 105, 100, 32, 68, 66, 117,
         115, 32, 78, 97, 109, 101, 33]) = false ∧
    sanitizeAppId (sanitizeAppId [70, 111, 111]) ≠
      sanitizeAppId [70, 111, 111] := by
  constructor
  · decide
  · decide

/-- Claim C8 (amended).  For every input whose prefixed form is already a
valid interface name, sanitization yields exactly that prefixed form, which
is a valid interface name.  (As stated the claim fails on both counts: the
hashed fallback may start its final element with a digit and so need not be
valid, and re-sanitizing a once-sanitized valid input prepends the prefix a
second time.) -/
theorem c8_sanitize_valid_inputs (a : List Nat)
    (h : validInterfaceName (appIdPfx ++ a) = true) :
    sanitizeAppId a = appIdPfx ++ a ∧
    validInterfaceName (sanitizeAppId a) = true := by
  refine ⟨by simp [sanitizeAppId, h], ?_⟩
  simp [sanitizeAppId, h]

/-- Witness for C8 (amended) at the concrete app id "Foo". -/
theorem c8_sanitize_valid_inputs_witness :
    validInterfaceName (appIdPfx ++ [70, 111, 111]) = true ∧
    sanitizeAppId [70, 111, 111] = appIdPfx ++ [70, 111, 111] ∧
    validInterfaceName (sanitizeAppId [70, 111, 111]) = true :=
  ⟨by decide, (c8_sanitize_valid_inputs [70, 111, 111] (by decide)).1,
    (c8_sanitize_valid_inputs [70, 111, 111] (by decide)).2⟩

/-! Codec round-trip lemmas, one per primitive, in continuation style. -/

theorem readU32_u32le (n : Nat) (h : n < 2 ^ 32) (r : List Nat) :
    readU32 (u32le n ++ r) = some (n, r) := by
  simp only [u32le, List.cons_append, List.nil_append, readU32]
  have : n % 256 + 256 * (n / 256 % 256) + 65536 * (n / 65536 % 256) +
      16777216 * (n / 16777216 % 256) = n := by omega
  rw [this]

theorem readU64_u64le (n : Nat) (h : n < 2 ^ 64) (r : List Nat) :
    readU64 (u64le n ++ r) = some (n, r) := by
  simp only [u64le, List.cons_append, List.nil_append, readU64]
  have : n % 256 + 256 * (n / 256 % 256) + 65536 * (n / 65536 % 256) +
      16777216 * (n / 16777216 % 256) + 4294967296 * (n / 4294967296 % 256) +
      1099511627776 * (n / 1099511627776 % 256) +
      281474976710656 * (n / 281474976710656 % 256) +
      72057594037927936 * (n / 72057594037927936 % 256) = n := by omega
  rw [this]

theorem readBytesN_append (s : List Nat) :
    ∀ r : List Nat, readBytesN s.length (s ++ r) = some (s, r) := by
  induction s with
  | nil => intro r; rfl
  | cons b s ih =>
    intro r
    simp only [List.length_cons, List.cons_append, readBytesN]
    rw [List.append_eq, ih r]
    rfl

theorem readStr_encStr (s r : List Nat) (h1 : s.length < 2 ^ 64)
    (h2 : validUtf8 s = true) : readStr (encStr s ++ r) = some (s, r) := by
  simp only [encStr, List.append_assoc, readStr, readU64_u64le _ h1,
    readBytesN_append, h2, if_true]

theorem readBool_encBool (b : Bool) (r : List Nat) :
    readBool (encBool b ++ r) = some (b, r) := by
  cases b <;> rfl

theorem readOpt_encOpt (rd : List Nat → Option (α × List Nat))
    (enc : α → List Nat) (x : Option α) (r : List Nat)
    (hx : ∀ v, x = some v → rd (enc v ++ r) = some (v, r)) :
    readOpt rd (encOpt enc x ++ r) = some (x, r) := by
  cases x with
  | none => rfl
  | some v =>
    simp only [encOpt, List.cons_append, readOpt, hx v rfl]
    rfl

theorem readIconData_enc (d : IconData) (r : List Nat)
    (hw : d.width < 2 ^ 32) (hh : d.height < 2 ^ 32)
    (hl : d.data.length < 2 ^ 64) :
    readIconData (encIconData d ++ r) = some (d, r) := by
  simp only [encIconData, List.append_assoc, readIconData, readU32_u32le _ hw,
    readU32_u32le _ hh, readU64_u64le _ hl, readBytesN_append]

theorem readVecN_enc (rd : List Nat → Option (α × List Nat))
    (enc : α → List Nat) (xs : List α)
    (hx : ∀ v ∈ xs, ∀ r, rd (enc v ++ r) = some (v, r)) :
    ∀ r : List Nat,
      readVecN rd xs.length ((xs.map enc).flatten ++ r) = some (xs, r) := by
  induction xs with
  | nil => intro r; rfl
  | cons x xs ih =>
    intro r
    simp only [List.length_cons, List.map_cons, List.flatten_cons,
      List.append_assoc, readVecN, hx x (List.mem_cons_self x xs)]
    rw [ih (fun v hv r => hx v (List.mem_cons_of_mem x hv) r) r]

theorem readVec_encVec (rd : List Nat → Option (α × List Nat))
    (enc : α → List Nat) (xs : List α) (r : List Nat)
    (hlen : xs.length < 2 ^ 64)
    (hx : ∀ v ∈ xs, ∀ r, rd (enc v ++ r) = some (v, r)) :
    readVec rd (encVec enc xs ++ r) = some (xs, r) := by
  simp only [encVec, List.append_assoc, readVec, readU64_u64le _ hlen]
  exact readVecN_enc rd enc xs hx r

theorem readIconType_enc (t : IconType) (r : List Nat) :
    readIconType (encIconType t ++ r) = some (t, r) := by
  cases t <;> rfl

/-- Elementwise round-trip for well-formed pixmaps. -/
theorem iconVec_roundtrip (data : List IconData) (h : wfIconVec data = true) :
    ∀ v ∈ data, ∀ r, readIconData (encIconData v ++ r) = some (v, r) := by
  intro v hv r
  simp only [wfIconVec, Bool.and_eq_true, List.all_eq_true] at h
  have := h.1 v hv
  simp only [wfIconData, Bool.and_eq_true, decide_eq_true_eq] at this
  exact readIconData_enc v r this.1.1.1 this.1.1.2 this.2

theorem readClientEvent_enc (e : ClientEvent) (r : List Nat)
    (h : wfClientEvent e = true) :
    readClientEvent (encClientEvent e ++ r) = some (e, r) := by
  cases e with
  | Create category app_id is_menu =>
    simp only [wfClientEvent, wfStr, Bool.and_eq_true, List.all_eq_true,
      decide_eq_true_eq] at h
    simp only [encClientEvent, List.append_assoc, readClientEvent,
      readU32_u32le 0 (by omega),
      readStr_encStr category _ h.1.2 h.1.1.2,
      readStr_encStr app_id _ h.2.2 h.2.1.2, readBool_encBool]
  | Title t =>
    simp only [encClientEvent, List.append_assoc, readClientEvent,
      readU32_u32le 1 (by omega)]
    rw [readOpt_encOpt readStr encStr t r]
    intro v hv
    subst hv
    simp only [wfClientEvent, Option.elim, wfStr, Bool.and_eq_true,
      decide_eq_true_eq] at h
    exact readStr_encStr v r h.2 h.1.2
  | Status s =>
    simp only [encClientEvent, List.append_assoc, readClientEvent,
      readU32_u32le 2 (by omega)]
    rw [readOpt_encOpt readStr encStr s r]
    intro v hv
    subst hv
    simp only [wfClientEvent, Option.elim, wfStr, Bool.and_eq_true,
      decide_eq_true_eq] at h
    exact readStr_encStr v r h.2 h.1.2
  | Icon typ data =>
    simp only [wfClientEvent] at h
    have hlen : data.length < 2 ^ 64 := by
      simp only [wfIconVec, Bool.and_eq_true, decide_eq_true_eq] at h
      exact h.2
    simp only [encClientEvent, List.append_assoc, readClientEvent,
      readU32_u32le 3 (by omega), readIconType_enc]
    rw [readVec_encVec readIconData encIconData data r hlen
      (iconVec_roundtrip data h)]
  | RemoveIcon typ =>
    simp only [encClientEvent, List.append_assoc, readClientEvent,
      readU32_u32le 4 (by omega), readIconType_enc]
  | Tooltip icon_data title description =>
    simp only [wfClientEvent, Bool.and_eq_true] at h
    have hlen : icon_data.length < 2 ^ 64 := by
      have := h.1.1
      simp only [wfIconVec, Bool.and_eq_true, decide_eq_true_eq] at this
      exact this.2
    have ht := h.1.2
    have hd := h.2
    simp only [wfStr, Bool.and_eq_true, decide_eq_true_eq] at ht hd
    simp only [encClientEvent, List.append_assoc, readClientEvent,
      readU32_u32le 5 (by omega)]
    rw [readVec_encVec readIconData encIconData icon_data _ hlen
      (iconVec_roundtrip icon_data h.1.1)]
    simp only [readStr_encStr title _ ht.2 ht.1.2,
      readStr_encStr description _ hd.2 hd.1.2]
  | RemoveTooltip =>
    simp only [encClientEvent, readClientEvent, readU32_u32le 6 (by omega)]
  | Destroy =>
    simp only [encClientEvent, readClientEvent, readU32_u32le 7 (by omega)]

theorem readServerEvent_enc (e : ServerEvent) (r : List Nat)
    (h : wfServerEvent e = true) :
    readServerEvent (encServerEvent e ++ r) = some (e, r) := by
  cases e with
  | Activate x y =>
    simp only [wfServerEvent, Bool.and_eq_true, decide_eq_true_eq] at h
    simp only [encServerEvent, List.append_assoc, readServerEvent,
      readU32_u32le 0 (by omega), readU32_u32le _ h.1, readU32_u32le _ h.2]
  | SecondaryActivate x y =>
    simp only [wfServerEvent, Bool.and_eq_true, decide_eq_true_eq] at h
    simp only [encServerEvent, List.append_assoc, readServerEvent,
      readU32_u32le 1 (by omega), readU32_u32le _ h.1, readU32_u32le _ h.2]
  | ContextMenu x y =>
    simp only [wfServerEvent, Bool.and_eq_true, decide_eq_true_eq] at h
    simp only [encServerEvent, List.append_assoc, readServerEvent,
      readU32_u32le 2 (by omega), readU32_u32le _ h.1, readU32_u32le _ h.2]
  | Scroll delta orientation =>
    simp only [wfServerEvent, wfStr, Bool.and_eq_true, decide_eq_true_eq] at h
    simp only [encServerEvent, List.append_assoc, readServerEvent,
      readU32_u32le 3 (by omega), readU32_u32le _ h.1,
      readStr_encStr orientation _ h.2.2 h.2.1.2]

/-- Claim C4.  For every representable payload (numeric fields within their
machine types, strings valid UTF-8), decoding the bytes produced by the wire
encoder yields the payload back, with no bytes left over — for both framed
payload types.  The encoders `encodeClient`/`encodeServer` are Lean
functions, hence total and deterministic by construction. -/
theorem c4_frame_roundtrip :
    (∀ e : IconClientEvent, wfClient e = true →
      decodeClient (encodeClient e) = some e) ∧
    (∀ e : IconServerEvent, wfServer e = true →
      decodeServer (encodeServer e) = some e) := by
  constructor
  · rintro ⟨id, ev⟩ h
    simp only [wfClient, Bool.and_eq_true, decide_eq_true_eq] at h
    simp only [encodeClient, decodeClient, readU64_u64le _ h.1]
    rw [← List.append_nil (encClientEvent ev), readClientEvent_enc ev [] h.2]
  · rintro ⟨id, ev⟩ h
    simp only [wfServer, Bool.and_eq_true, decide_eq_true_eq] at h
    simp only [encodeServer, decodeServer, readU64_u64le _ h.1]
    rw [← List.append_nil (encServerEvent ev), readServerEvent_enc ev [] h.2]

/-- Witness for C4 at concrete payloads: a Create with a one-pixel icon-less
app id and a Scroll event round-trip through the codec. -/
theorem c4_frame_roundtrip_witness :
    wfClient ⟨3, .Icon .Normal [⟨1, 1, [9, 9, 9, 9]⟩]⟩ = true ∧
    decodeClient (encodeClient ⟨3, .Icon .Normal [⟨1, 1, [9, 9, 9, 9]⟩]⟩) =
      some ⟨3, .Icon .Normal [⟨1, 1, [9, 9, 9, 9]⟩]⟩ ∧
    wfServer ⟨7, .Scroll 4294967295 [117, 112]⟩ = true ∧
    decodeServer (encodeServer ⟨7, .Scroll 4294967295 [117, 112]⟩) =
      some ⟨7, .Scroll 4294967295 [117, 112]⟩ :=
  ⟨by decide,
   c4_frame_roundtrip.1 ⟨3, .Icon .Normal [⟨1, 1, [9, 9, 9, 9]⟩]⟩ (by decide),
   by decide,
   c4_frame_roundtrip.2 ⟨7, .Scroll 4294967295 [117, 112]⟩ (by decide)⟩

/-- Claim C5.  A frame whose 32-bit length prefix exceeds 2^31 is rejected
fatally whatever the rest of the stream holds (the check precedes any use of
the payload); with the length within bounds, a payload that fails to decode
— including one whose decoded byte count differs from the advertised length,
since the deserializer rejects trailing bytes — is fatal, and a payload that
decodes exactly is accepted.  Stated for both receiving processes
(`decodeClient` is the daemon's payload decoder, `decodeServer` the
agent's). -/
theorem c5_frame_validation :
    (∀ (size : Nat) (stream : List Nat), size > 2 ^ 31 →
      frameStep decodeClient size stream = .error .excessiveLength ∧
      frameStep decodeServer size stream = .error .excessiveLength) ∧
    (∀ payload : List Nat, payload.length ≤ 2 ^ 31 →
      ((decodeClient payload = none →
          frameStep decodeClient payload.length payload = .error .malformed) ∧
        ∀ x, decodeClient payload = some x →
          frameStep decodeClient payload.length payload = .ok x)) ∧
    (∀ payload : List Nat, payload.length ≤ 2 ^ 31 →
      ((decodeServer payload = none →
          frameStep decodeServer payload.length payload = .error .malformed) ∧
        ∀ x, decodeServer payload = some x →
          frameStep decodeServer payload.length payload = .ok x)) := by
  refine ⟨fun size stream hsz => ⟨?_, ?_⟩, fun payload hsz => ⟨?_, ?_⟩,
    fun payload hsz => ⟨?_, ?_⟩⟩
  · simp only [frameStep]
    rw [if_pos (by omega)]
  · simp only [frameStep]
    rw [if_pos (by omega)]
  · intro hdec
    simp only [frameStep]
    rw [if_neg (by omega), if_neg (by omega), List.take_length, hdec]
  · intro x hdec
    simp only [frameStep]
    rw [if_neg (by omega), if_neg (by omega), List.take_length, hdec]
  · intro hdec
    simp only [frameStep]
    rw [if_neg (by omega), if_neg (by omega), List.take_length, hdec]
  · intro x hdec
    simp only [frameStep]
    rw [if_neg (by omega), if_neg (by omega), List.take_length, hdec]

/-- Witness for C5 at concrete frames: an oversized length prefix is fatal
on any stream; the 12-byte encoding of Destroy for id 1 is accepted; a
single zero byte fails to decode and is fatal. -/
theorem c5_frame_validation_witness :
    (2 ^ 31 + 1 > 2 ^ 31 ∧
      frameStep decodeClient (2 ^ 31 + 1) [0] = .error .excessiveLength) ∧
    ((encodeClient ⟨1, .Destroy⟩).length ≤ 2 ^ 31 ∧
      decodeClient (encodeClient ⟨1, .Destroy⟩) = some ⟨1, .Destroy⟩ ∧
      frameStep decodeClient (encodeClient ⟨1, .Destroy⟩).length
        (encodeClient ⟨1, .Destroy⟩) = .ok ⟨1, .Destroy⟩) ∧
    (([0] : List Nat).length ≤ 2 ^ 31 ∧ decodeClient [0] = none ∧
      frameStep decodeClient ([0] : List Nat).length [0] = .error .malformed) := by
  refine ⟨⟨by omega, (c5_frame_validation.1 (2 ^ 31 + 1) [0] (by omega)).1⟩,
    ⟨by decide, by decide, ?_⟩, ⟨by decide, by decide, ?_⟩⟩
  · exact (c5_frame_validation.2.1 (encodeClient ⟨1, .Destroy⟩) (by decide)).2
      ⟨1, .Destroy⟩ (by decide)
  · exact (c5_frame_validation.2.1 [0] (by decide)).1 (by decide)

/-! Border-painting lemmas. -/

/-- One in-bounds set_pixel call: the four bytes of the addressed pixel
become 255,255,0,0 and nothing else changes. -/
theorem setPixel_char {w : Nat} {d : List Nat} {x y : Nat}
    (hlt : (y * w + x) * 4 < 4294967296)
    (hb : (y * w + x) * 4 + 3 < d.length) :
    ∃ d', setPixel w d x y = some d' ∧ d'.length = d.length ∧
      ∀ i, d'[i]? =
        if (y * w + x) * 4 ≤ i ∧ i < (y * w + x) * 4 + 4
        then some (borderByte (i - (y * w + x) * 4))
        else d[i]? := by
  have hbase : (y * w + x) * 4 % 4294967296 = (y * w + x) * 4 :=
    Nat.mod_eq_of_lt hlt
  have hsp : setPixel w d x y =
      some ((((d.set ((y * w + x) * 4) 255).set ((y * w + x) * 4 + 1) 255).set
        ((y * w + x) * 4 + 2) 0).set ((y * w + x) * 4 + 3) 0) := by
    simp only [setPixel, hbase]
    rw [if_pos hb]
  refine ⟨_, hsp, by simp, ?_⟩
  intro i
  set B := (y * w + x) * 4 with hB
  have hlen : ((((d.set B 255).set (B + 1) 255).set (B + 2) 0)).length =
      d.length := by simp
  by_cases h3 : i = B + 3
  · subst h3
    rw [List.getElem?_set_self (by simp; omega)]
    rw [if_pos (by omega)]
    have : B + 3 - B = 3 := by omega
    rw [this]
    rfl
  · rw [List.getElem?_set_ne (by omega)]
    by_cases h2 : i = B + 2
    · subst h2
      rw [List.getElem?_set_self (by simp; omega)]
      rw [if_pos (by omega)]
      have : B + 2 - B = 2 := by omega
      rw [this]
      rfl
    · rw [List.getElem?_set_ne (by omega)]
      by_cases h1 : i = B + 1
      · subst h1
        rw [List.getElem?_set_self (by simp; omega)]
        rw [if_pos (by omega)]
        have : B + 1 - B = 1 := by omega
        rw [this]
        rfl
      · rw [List.getElem?_set_ne (by omega)]
        by_cases h0 : i = B
        · subst h0
          rw [List.getElem?_set_self (by omega)]
          rw [if_pos (by omega), Nat.sub_self]
          rfl
        · rw [List.getElem?_set_ne (by omega)]
          rw [if_neg (by omega)]

/-- Folding in-bounds set_pixel calls succeeds and yields, at every byte,
the border pattern when some call addressed its pixel, and the original
byte otherwise. -/
theorem foldlM_setPixel_char (w : Nat) :
    ∀ (L : List (Nat × Nat)) (d : List Nat),
      (∀ p ∈ L, (p.2 * w + p.1) * 4 < 4294967296 ∧
        (p.2 * w + p.1) * 4 + 3 < d.length) →
      ∃ d', L.foldlM (fun d p => setPixel w d p.1 p.2) d = some d' ∧
        d'.length = d.length ∧
        ∀ i, d'[i]? =
          if ∃ p ∈ L, p.2 * w + p.1 = i / 4
          then some (borderByte (i % 4))
          else d[i]? := by
  intro L
  induction L with
  | nil =>
    intro d _
    refine ⟨d, rfl, rfl, fun i => ?_⟩
    rw [if_neg (by simp)]
  | cons q L ih =>
    intro d hbounds
    obtain ⟨hq1, hq2⟩ := hbounds q (List.mem_cons_self q L)
    obtain ⟨d1, hd1, hd1len, hd1char⟩ := setPixel_char hq1 hq2
    obtain ⟨d', hd', hd'len, hd'char⟩ := ih d1 (fun p hp => by
      rw [hd1len]
      exact hbounds p (List.mem_cons_of_mem q hp))
    refine ⟨d', ?_, by rw [hd'len, hd1len], fun i => ?_⟩
    · rw [List.foldlM_cons, hd1]
      simpa using hd'
    · rw [hd'char i]
      by_cases hL : ∃ p ∈ L, p.2 * w + p.1 = i / 4
      · rw [if_pos hL, if_pos ?_]
        obtain ⟨p, hp, hpe⟩ := hL
        exact ⟨p, List.mem_cons_of_mem q hp, hpe⟩
      · rw [if_neg hL, hd1char i]
        by_cases hqi : q.2 * w + q.1 = i / 4
        · rw [if_pos (by omega), if_pos ⟨q, List.mem_cons_self q L, hqi⟩]
          have harg : i - (q.2 * w + q.1) * 4 = i % 4 := by omega
          rw [harg]
        · rw [if_neg (by omega), if_neg ?_]
          rintro ⟨p, hp, hpe⟩
          rcases List.mem_cons.mp hp with rfl | hp'
          · exact hqi hpe
          · exact hL ⟨p, hp', hpe⟩

theorem pix_mod {w x : Nat} (y : Nat) (hx : x < w) : (y * w + x) % w = x := by
  rw [Nat.add_comm, Nat.add_mul_mod_self_right, Nat.mod_eq_of_lt hx]

theorem pix_div {w x : Nat} (y : Nat) (hx : x < w) : (y * w + x) / w = y := by
  rw [Nat.add_comm, Nat.add_mul_div_right _ _ (by omega : 0 < w),
    Nat.div_eq_of_lt hx]
  omega

theorem pix_lt {w h x y : Nat} (hx : x < w) (hy : y < h) : y * w + x < w * h := by
  have h1 : y * w + x < (y + 1) * w := by
    rw [Nat.succ_mul]
    omega
  have h2 : (y + 1) * w ≤ h * w := Nat.mul_le_mul_right w hy
  rw [Nat.mul_comm w h]
  omega

/-- Unfolding membership in the set of painted coordinates. -/
theorem mem_borderWrites {w h : Nat} (p : Nat × Nat) :
    p ∈ borderWrites w h ↔
      ((∃ x, x < 2 ∧ ∃ y, y < h ∧
        (p = (x, y) ∨ p = ((w + 4294967296 - (1 + x)) % 4294967296, y))) ∨
      (∃ y, y < 2 ∧ ∃ x, x < w ∧
        (p = (x, y) ∨ p = (x, (h + 4294967296 - (1 + y)) % 4294967296)))) := by
  simp [borderWrites, List.mem_append, List.mem_flatMap, List.mem_range,
    List.mem_cons, and_assoc]

/-- Painted coordinates are genuine pixel coordinates. -/
theorem borderWrites_coords {w h : Nat} (hw2 : 2 ≤ w) (hh2 : 2 ≤ h)
    (hwlt : w < 4294967296) (hhlt : h < 4294967296) :
    ∀ p ∈ borderWrites w h, p.1 < w ∧ p.2 < h := by
  intro p hp
  rcases (mem_borderWrites p).mp hp with ⟨x, hx, y, hy, hpe | hpe⟩ |
    ⟨y, hy, x, hx, hpe | hpe⟩ <;> subst hpe <;> refine ⟨?_, ?_⟩ <;>
    simp only <;> omega

/-- The painted pixel set is exactly the claim's two-pixel border region. -/
theorem borderWrites_cover {w h : Nat} (hw2 : 2 ≤ w) (hh2 : 2 ≤ h)
    (hwlt : w < 4294967296) (hhlt : h < 4294967296) (k : Nat) (hk : k < w * h) :
    (∃ p ∈ borderWrites w h, p.2 * w + p.1 = k) ↔
      isBorderPixel w h k = true := by
  constructor
  · rintro ⟨p, hp, hpk⟩
    rcases (mem_borderWrites p).mp hp with ⟨x, hx, y, hy, hpe | hpe⟩ |
      ⟨y, hy, x, hx, hpe | hpe⟩ <;> subst hpe <;> simp only at hpk
    · have hm : k % w = x := hpk ▸ pix_mod y (by omega)
      simp only [isBorderPixel, Bool.or_eq_true, decide_eq_true_eq]
      omega
    · have hxe : (w + 4294967296 - (1 + x)) % 4294967296 = w - 1 - x := by
        omega
      rw [hxe] at hpk
      have hm : k % w = w - 1 - x := hpk ▸ pix_mod y (by omega)
      simp only [isBorderPixel, Bool.or_eq_true, decide_eq_true_eq]
      omega
    · have hm : k / w = y := hpk ▸ pix_div y hx
      simp only [isBorderPixel, Bool.or_eq_true, decide_eq_true_eq]
      omega
    · have hye : (h + 4294967296 - (1 + y)) % 4294967296 = h - 1 - y := by
        omega
      rw [hye] at hpk
      have hm : k / w = h - 1 - y := hpk ▸ pix_div (h - 1 - y) hx
      simp only [isBorderPixel, Bool.or_eq_true, decide_eq_true_eq]
      omega
  · intro hb
    simp only [isBorderPixel, Bool.or_eq_true, decide_eq_true_eq] at hb
    have hw0 : 0 < w := by omega
    have hdm : w * (k / w) + k % w = k := Nat.div_add_mod k w
    have hxw : k % w < w := Nat.mod_lt _ hw0
    have hyh : k / w < h := Nat.div_lt_of_lt_mul hk
    rcases hb with ((hx | hx) | hy) | hy
    · refine ⟨(k % w, k / w), ?_, ?_⟩
      · rw [mem_borderWrites]
        exact Or.inl ⟨k % w, hx, k / w, hyh, Or.inl rfl⟩
      · show k / w * w + k % w = k
        rw [Nat.mul_comm]
        exact hdm
    · have hxc : k % w = w - 1 - 0 ∨ k % w = w - 1 - 1 := by omega
      rcases hxc with hxe | hxe
      · refine ⟨((w + 4294967296 - (1 + 0)) % 4294967296, k / w), ?_, ?_⟩
        · rw [mem_borderWrites]
          exact Or.inl ⟨0, by omega, k / w, hyh, Or.inr rfl⟩
        · show k / w * w + (w + 4294967296 - (1 + 0)) % 4294967296 = k
          have hm : (w + 4294967296 - (1 + 0)) % 4294967296 = w - 1 - 0 := by
            omega
          rw [hm, Nat.mul_comm]
          omega
      · refine ⟨((w + 4294967296 - (1 + 1)) % 4294967296, k / w), ?_, ?_⟩
        · rw [mem_borderWrites]
          exact Or.inl ⟨1, by omega, k / w, hyh, Or.inr rfl⟩
        · show k / w * w + (w + 4294967296 - (1 + 1)) % 4294967296 = k
          have hm : (w + 4294967296 - (1 + 1)) % 4294967296 = w - 1 - 1 := by
            omega
          rw [hm, Nat.mul_comm]
          omega
    · refine ⟨(k % w, k / w), ?_, ?_⟩
      · rw [mem_borderWrites]
        exact Or.inr ⟨k / w, hy, k % w, hxw, Or.inl rfl⟩
      · show k / w * w + k % w = k
        rw [Nat.mul_comm]
        exact hdm
    · have hyc : k / w = h - 1 - 0 ∨ k / w = h - 1 - 1 := by omega
      rcases hyc with hye | hye
      · refine ⟨(k % w, (h + 4294967296 - (1 + 0)) % 4294967296), ?_, ?_⟩
        · rw [mem_borderWrites]
          exact Or.inr ⟨0, by omega, k % w, hxw, Or.inr rfl⟩
        · show (h + 4294967296 - (1 + 0)) % 4294967296 * w + k % w = k
          have hm : (h + 4294967296 - (1 + 0)) % 4294967296 = h - 1 - 0 := by
            omega
          rw [hm]
          have hrw : h - 1 - 0 = k / w := by omega
          rw [hrw, Nat.mul_comm]
          exact hdm
      · refine ⟨(k % w, (h + 4294967296 - (1 + 1)) % 4294967296), ?_, ?_⟩
        · rw [mem_borderWrites]
          exact Or.inr ⟨1, by omega, k % w, hxw, Or.inr rfl⟩
        · show (h + 4294967296 - (1 + 1)) % 4294967296 * w + k % w = k
          have hm : (h + 4294967296 - (1 + 1)) % 4294967296 = h - 1 - 1 := by
            omega
          rw [hm]
          have hrw : h - 1 - 1 = k / w := by omega
          rw [hrw, Nat.mul_comm]
          exact hdm

/-- Painting one pixmap whose dimensions are at least 2 and whose buffer is
exactly 4·w·h bytes (and below the 2^31 frame limit) succeeds, and the
result is the border overlay over the original bytes. -/
theorem paintIcon_char (it : IconData) (hw2 : 2 ≤ it.width)
    (hh2 : 2 ≤ it.height) (hlen : it.data.length = 4 * it.width * it.height)
    (hfr : it.data.length < 2 ^ 31) :
    ∃ d', paintIcon it = some ⟨it.width, it.height, d'⟩ ∧
      d'.length = it.data.length ∧
      ∀ i < it.data.length,
        d'[i]? = if isBorderPixel it.width it.height (i / 4)
          then some (borderByte (i % 4)) else it.data[i]? := by
  rw [Nat.mul_assoc] at hlen
  have hw31 : it.width < 4294967296 := by
    have h8 : it.width * 2 ≤ it.width * it.height :=
      Nat.mul_le_mul_left it.width hh2
    omega
  have hh31 : it.height < 4294967296 := by
    have h8 : 2 * it.height ≤ it.width * it.height :=
      Nat.mul_le_mul_right it.height hw2
    omega
  have hbounds : ∀ p ∈ borderWrites it.width it.height,
      (p.2 * it.width + p.1) * 4 < 4294967296 ∧
      (p.2 * it.width + p.1) * 4 + 3 < it.data.length := by
    intro p hp
    obtain ⟨hx, hy⟩ := borderWrites_coords hw2 hh2 hw31 hh31 p hp
    have hpix := pix_lt hx hy
    constructor <;> omega
  obtain ⟨d', hfold, hlen', hchar⟩ :=
    foldlM_setPixel_char it.width (borderWrites it.width it.height)
      it.data hbounds
  refine ⟨d', ?_, hlen', ?_⟩
  · simp only [paintIcon]
    rw [hfold]
    rfl
  · intro i hi
    rw [hchar i]
    have hk : i / 4 < it.width * it.height := by omega
    by_cases hbp : isBorderPixel it.width it.height (i / 4) = true
    · rw [if_pos ((borderWrites_cover hw2 hh2 hw31 hh31 (i / 4) hk).mpr hbp),
        if_pos hbp]
    · rw [if_neg (fun hex =>
        hbp ((borderWrites_cover hw2 hh2 hw31 hh31 (i / 4) hk).mp hex)),
        if_neg hbp]

/-- Claim C6.  For every Icon event each of whose IconData entries has
width ≥ 2, height ≥ 2 and exactly 4·width·height data bytes (any payload a
frame can carry is under 2^31 bytes, spec section 6), the painting step
succeeds and overwrites exactly the bytes of the pixels in the two
outermost rows and two outermost columns with the pattern 255,255,0,0,
leaving every other byte unchanged; the daemon stores the painted list in
the slot matching the icon type; and for a 2-by-2 image every byte of the
stored data is the pattern 255,255,0,0 repeated. -/
theorem c6_border_overlay :
    (∀ it : IconData, 2 ≤ it.width → 2 ≤ it.height →
      it.data.length = 4 * it.width * it.height → it.data.length < 2 ^ 31 →
      ∃ d', paintIcon it = some ⟨it.width, it.height, d'⟩ ∧
        d'.length = it.data.length ∧
        ∀ i < it.data.length,
          d'[i]? = if isBorderPixel it.width it.height (i / 4)
            then some (borderByte (i % 4)) else it.data[i]?) ∧
    (∀ (st : DaemonState) (id : Nat) (ni : NotifierIcon)
        (data data' : List IconData), lookupItem st id = some ni →
      paintAll data = some data' →
      daemonStep st ⟨id, .Icon .Normal data⟩ =
        .ok (updateItem st id fun _ => { ni with icon := some data' }) ∧
      daemonStep st ⟨id, .Icon .Attention data⟩ =
        .ok (updateItem st id fun _ => { ni with attention_icon := some data' }) ∧
      daemonStep st ⟨id, .Icon .Overlay data⟩ =
        .ok (updateItem st id fun _ => { ni with overlay_icon := some data' })) ∧
    (∀ bytes : List Nat, bytes.length = 16 →
      paintIcon ⟨2, 2, bytes⟩ =
        some ⟨2, 2, [255, 255, 0, 0, 255, 255, 0, 0, 255, 255, 0, 0,
          255, 255, 0, 0]⟩) := by
  refine ⟨paintIcon_char, ?_, ?_⟩
  · intro st id ni data data' hni hpa
    refine ⟨?_, ?_, ?_⟩ <;> simp only [daemonStep, hni, hpa, setIconSlot]
  · intro bytes hlen
    obtain ⟨d', hp, hl, hc⟩ := paintIcon_char ⟨2, 2, bytes⟩
      (by omega : (2 : Nat) ≤ 2) (by omega : (2 : Nat) ≤ 2)
      (show bytes.length = 4 * 2 * 2 by omega)
      (show bytes.length < 2 ^ 31 by omega)
    simp only at hp hl hc
    have hdp : d' = [255, 255, 0, 0, 255, 255, 0, 0, 255, 255, 0, 0,
        255, 255, 0, 0] := by
      apply List.ext_getElem?
      intro n
      by_cases hn : n < 16
      · rw [hc n (by omega), if_pos ?_]
        · have hpat : ∀ m, m < 16 →
              ([255, 255, 0, 0, 255, 255, 0, 0, 255, 255, 0, 0, 255, 255, 0,
                0] : List Nat)[m]? = some (borderByte (m % 4)) := by decide
          rw [hpat n hn]
        · have hall : ∀ k, k < 4 → isBorderPixel 2 2 k = true := by decide
          exact hall (n / 4) (by omega)
      · have h1 : d'[n]? = none := List.getElem?_eq_none (by omega)
        have h2 : ([255, 255, 0, 0, 255, 255, 0, 0, 255, 255, 0, 0, 255, 255,
            0, 0] : List Nat)[n]? = none := List.getElem?_eq_none (by
          simp only [List.length_cons, List.length_nil]
          omega)
        rw [h1, h2]
    rw [hp, hdp]

/-- Witness for C6 at the spec's S1 scenario: a 2-by-2 all-zero pixmap is
painted to the all-border pattern and stored in the Normal slot. -/
theorem c6_border_overlay_witness :
    ((List.replicate 16 0 : List Nat).length = 16 ∧
      paintIcon ⟨2, 2, List.replicate 16 0⟩ =
        some ⟨2, 2, [255, 255, 0, 0, 255, 255, 0, 0, 255, 255, 0, 0,
          255, 255, 0, 0]⟩) ∧
    (lookupItem (insertItem initDaemonState 1
        ⟨[97], [98], false, none, none, none, none, none, none⟩) 1 =
      some ⟨[97], [98], false, none, none, none, none, none, none⟩ ∧
      paintAll [] = some [] ∧
      daemonStep (insertItem initDaemonState 1
          ⟨[97], [98], false, none, none, none, none, none, none⟩)
        ⟨1, .Icon .Normal []⟩ =
        .ok (updateItem (insertItem initDaemonState 1
            ⟨[97], [98], false, none, none, none, none, none, none⟩) 1
          fun _ => ⟨[97], [98], false, none, none, some [], none, none,
            none⟩)) ∧
    ((⟨2, 2, List.replicate 16 0⟩ : IconData).data.length =
        4 * 2 * 2 ∧
      ∃ d', paintIcon ⟨2, 2, List.replicate 16 0⟩ = some ⟨2, 2, d'⟩ ∧
        d'.length = 16 ∧
        ∀ i < 16, d'[i]? = if isBorderPixel 2 2 (i / 4)
          then some (borderByte (i % 4))
          else (List.replicate 16 0 : List Nat)[i]? ) := by
  refine ⟨⟨by decide, c6_border_overlay.2.2 (List.replicate 16 0) (by decide)⟩,
    ⟨by decide, by decide, ?_⟩, by decide, ?_⟩
  · exact (c6_border_overlay.2.1 (insertItem initDaemonState 1
      ⟨[97], [98], false, none, none, none, none, none, none⟩) 1
      ⟨[97], [98], false, none, none, none, none, none, none⟩ [] []
      (by decide) (by decide)).1
  · exact c6_border_overlay.1 ⟨2, 2, List.replicate 16 0⟩ (by decide)
      (by decide) (by decide) (by decide)

/-- One in-bounds set_pixel call succeeds (bound stated on the wrapped
index, as the code computes it). -/
theorem setPixel_isSome {w : Nat} {d : List Nat} {x y : Nat}
    (h : (y * w + x) * 4 % 4294967296 + 3 < d.length) :
    ∃ d', setPixel w d x y = some d' ∧ d'.length = d.length := by
  simp only [setPixel]
  rw [if_pos h]
  exact ⟨_, rfl, by simp⟩

/-- A fold of in-bounds set_pixel calls succeeds. -/
theorem foldlM_setPixel_isSome (w : Nat) :
    ∀ (L : List (Nat × Nat)) (d : List Nat),
      (∀ p ∈ L, (p.2 * w + p.1) * 4 % 4294967296 + 3 < d.length) →
      ∃ d', L.foldlM (fun d p => setPixel w d p.1 p.2) d = some d' ∧
        d'.length = d.length := by
  intro L
  induction L with
  | nil => intro d _; exact ⟨d, rfl, rfl⟩
  | cons q L ih =>
    intro d hbounds
    obtain ⟨d1, hd1, hd1len⟩ :=
      setPixel_isSome (hbounds q (List.mem_cons_self q L))
    obtain ⟨d', hd', hd'len⟩ := ih d1 (fun p hp => by
      rw [hd1len]
      exact hbounds p (List.mem_cons_of_mem q hp))
    refine ⟨d', ?_, by rw [hd'len, hd1len]⟩
    rw [List.foldlM_cons, hd1]
    simpa using hd'

/-- Claim C10.  The border-painting step validates nothing: it is panic-free
whenever every entry has width ≥ 2, height ≥ 2 and at least 4·width·height
data bytes (width and height are u32 values, hence below 2^32), or has
width = height = 0 (the loops then run zero iterations); and there are
guest-controlled Icon events outside that precondition whose processing
panics and aborts the daemon — a width-1 entry (the wrapping computation of
`width - 1 - x` at x = 1 sends the write out of bounds) and an entry whose
buffer is one byte short of 4·width·height. -/
theorem c10_painting_partiality :
    (∀ it : IconData,
      ((2 ≤ it.width ∧ 2 ≤ it.height ∧ it.width < 4294967296 ∧
          it.height < 4294967296 ∧
          4 * it.width * it.height ≤ it.data.length) ∨
        (it.width = 0 ∧ it.height = 0)) →
      (paintIcon it).isSome = true) ∧
    paintIcon ⟨1, 1, [0, 0, 0, 0]⟩ = none ∧
    paintIcon ⟨2, 2, List.replicate 15 0⟩ = none ∧
    (∀ (st : DaemonState) (ni : NotifierIcon), lookupItem st 1 = some ni →
      daemonStep st ⟨1, .Icon .Normal [⟨1, 1, [0, 0, 0, 0]⟩]⟩ =
        .error .pixmapPanic ∧
      daemonStep st ⟨1, .Icon .Normal [⟨2, 2, List.replicate 15 0⟩]⟩ =
        .error .pixmapPanic) := by
  refine ⟨?_, by decide, by decide, ?_⟩
  · rintro it (⟨hw2, hh2, hwlt, hhlt, hlen⟩ | ⟨hw0, hh0⟩)
    · rw [Nat.mul_assoc] at hlen
      have hbounds : ∀ p ∈ borderWrites it.width it.height,
          (p.2 * it.width + p.1) * 4 % 4294967296 + 3 < it.data.length := by
        intro p hp
        obtain ⟨hx, hy⟩ := borderWrites_coords hw2 hh2 hwlt hhlt p hp
        have hpix := pix_lt hx hy
        have hmm : (p.2 * it.width + p.1) * 4 % 4294967296 =
            4 * ((p.2 * it.width + p.1) % 1073741824) := by
          rw [Nat.mul_comm (p.2 * it.width + p.1) 4]
          exact Nat.mul_mod_mul_left 4 _ 1073741824
        omega
      obtain ⟨d', hfold, -⟩ :=
        foldlM_setPixel_isSome it.width (borderWrites it.width it.height)
          it.data hbounds
      simp only [paintIcon]
      rw [hfold]
      rfl
    · have hbw : borderWrites 0 0 = [] := by decide
      rcases it with ⟨iw, ih2, idata⟩
      simp only at hw0 hh0
      subst hw0
      subst hh0
      simp only [paintIcon, hbw, List.foldlM_nil]
      rfl
  · intro st ni hni
    have h1 : paintAll [(⟨1, 1, [0, 0, 0, 0]⟩ : IconData)] = none := by decide
    have h2 : paintAll [(⟨2, 2, List.replicate 15 0⟩ : IconData)] = none := by
      decide
    constructor <;> simp only [daemonStep, hni, h1, h2]

/-- Witness for C10: the panic-freedom direction at a well-formed 2-by-2
pixmap, and the daemon-level panics from a concrete daemon state holding
icon id 1. -/
theorem c10_painting_partiality_witness :
    (paintIcon ⟨2, 2, List.replicate 16 0⟩).isSome = true ∧
    (lookupItem (insertItem initDaemonState 1
        ⟨[97], [98], false, none, none, none, none, none, none⟩) 1 =
      some ⟨[97], [98], false, none, none, none, none, none, none⟩ ∧
      daemonStep (insertItem initDaemonState 1
          ⟨[97], [98], false, none, none, none, none, none, none⟩)
        ⟨1, .Icon .Normal [⟨1, 1, [0, 0, 0, 0]⟩]⟩ = .error .pixmapPanic) := by
  refine ⟨c10_painting_partiality.1 ⟨2, 2, List.replicate 16 0⟩
    (Or.inl (by decide)), by decide, ?_⟩
  exact (c10_painting_partiality.2.2.2 (insertItem initDaemonState 1
    ⟨[97], [98], false, none, none, none, none, none, none⟩)
    ⟨[97], [98], false, none, none, none, none, none, none⟩ (by decide)).1

end SniIcon
